import Mathlib

/-!
Shallow embedding of the header consistency verifier and in-place binary
repair engine of lasinfo.cpp (LAStools).  Machine integers are modelled as
Nat (with explicit mod 2^32 where the source casts to U32), IEEE doubles as
exact rationals.  Each definition mirrors the corresponding source code; the
few collaborator accessors that live outside this repository are marked as
modelled from the spec.
-/

namespace LasInfo

/-- A scheduled in-place correction: absolute byte offset, byte width, and
the numeric payload written there (counters and doubles as rationals; the
payload of string edits on metadata records is command-line input and is
left empty). -/
structure Correction where
  pos : Nat
  width : Nat
  values : List ℚ
deriving DecidableEq

/-- Largest value representable in an unsigned 32-bit header field. -/
def U32_MAX : Nat := 2 ^ 32 - 1

/-- The fixed-layout header fields that the verifier reads and repairs
(lasinfo.cpp works on the parsed LASheader of the reader collaborator). -/
structure Header where
  point_data_format : Nat
  version_minor : Nat
  number_of_point_records : Nat
  number_of_points_by_return : List Nat
  extended_number_of_point_records : Nat
  extended_number_of_points_by_return : List Nat
  x_scale_factor : ℚ
  y_scale_factor : ℚ
  z_scale_factor : ℚ
  x_offset : ℚ
  y_offset : ℚ
  z_offset : ℚ
  min_x : ℚ
  max_x : ℚ
  min_y : ℚ
  max_y : ℚ
  min_z : ℚ
  max_z : ℚ
  header_size : Nat
  number_of_variable_length_records : Nat
  vlr_record_lengths : List Nat
deriving DecidableEq

/-- The part of the point summary accumulator that the header cross-checks
consume: total count, per-return counts (indices 0..15), and the
integer-encoded coordinate extrema. -/
structure Summary where
  number_of_point_records : Nat
  number_of_points_by_return : List Nat
  min_X : Int
  max_X : Int
  min_Y : Int
  max_Y : Int
  min_Z : Int
  max_Z : Int
deriving DecidableEq

/-- Modelled from the spec: the header accessor recomputing a real-world x
coordinate as offset + integer × scale_factor (the accessor itself lives in
the reader collaborator, outside this repository). -/
def Header.get_x (h : Header) (X : Int) : ℚ := h.x_offset + h.x_scale_factor * X

/-- Modelled from the spec: real-world y coordinate, offset + integer × scale. -/
def Header.get_y (h : Header) (Y : Int) : ℚ := h.y_offset + h.y_scale_factor * Y

/-- Modelled from the spec: real-world z coordinate, offset + integer × scale. -/
def Header.get_z (h : Header) (Z : Int) : ℚ := h.z_offset + h.z_scale_factor * Z

/-- Check of the legacy 32-bit point count (lasinfo.cpp 7460-7590), repair
branch.  Returns the scheduled corrections together with the value the
4-byte field at offset 107 holds after the repair. -/
def legacyCountRepair (fmt minor hLeg total : Nat) : List Correction × Nat :=
  if fmt < 6 ∧ total ≠ hLeg then
    if total ≤ U32_MAX then
      ([⟨107, 4, [(total : ℚ)]⟩], total)
    else if minor < 4 then
      ([], hLeg)
    else if hLeg ≠ 0 then
      ([⟨107, 4, [(0 : ℚ)]⟩], 0)
    else
      ([], hLeg)
  else if 6 ≤ fmt ∧ hLeg ≠ 0 then
    ([⟨107, 4, [(0 : ℚ)]⟩], 0)
  else
    ([], hLeg)

/-- Check of the extended 64-bit point count (lasinfo.cpp 7595-7629), only
performed for minor version > 3; the 8-byte field sits at offset 235 + 12. -/
def extendedCountRepair (minor hExt total : Nat) : List Correction × Nat :=
  if 3 < minor then
    if total ≠ hExt then
      ([⟨235 + 12, 8, [(total : ℚ)]⟩], total)
    else
      ([], hExt)
  else
    ([], hExt)

/-- Per-bucket decision of the legacy number-of-points-by-return loop
(lasinfo.cpp 7640-7733).  Returns the value stored into the staging array
slot for this bucket and whether the bucket flags the block as wrong.  The
value g stands for the slot content left untouched by the branch that
performs no assignment (uninitialized stack memory in the source). -/
def legacyByReturnBucket (fmt minor hb tb g : Nat) : Nat × Bool :=
  if fmt < 6 ∧ hb ≠ tb then
    if tb ≤ U32_MAX then (tb, true)
    else if minor < 4 then (g, false)
    else if hb ≠ 0 then (0, true)
    else (0, false)
  else if 6 ≤ fmt ∧ hb ≠ 0 then (0, true)
  else (tb % 2 ^ 32, false)

/-- The legacy by-return check (lasinfo.cpp 7632-7746): the five buckets are
examined independently, but any wrong bucket triggers a single 20-byte
write of the whole staging array at offset 111.  Returns corrections and
the five field values after repair. -/
def legacyByReturnRepair (fmt minor : Nat) (hRet sRet g : List Nat) :
    List Correction × List Nat :=
  let entries := (List.range 5).map fun i =>
    (legacyByReturnBucket fmt minor (hRet.getD i 0) (sRet.getD (i + 1) 0) (g.getD i 0)).1
  if (List.range 5).any
      (fun i =>
        (legacyByReturnBucket fmt minor (hRet.getD i 0) (sRet.getD (i + 1) 0) (g.getD i 0)).2) then
    ([⟨111, 20, entries.map fun n => (n : ℚ)⟩], entries)
  else
    ([], hRet)

/-- The extended by-return check (lasinfo.cpp 7750-7810), minor version > 3
only: staging array always holds the summary truth; any differing bucket
triggers a single 120-byte write of all fifteen 8-byte buckets at offset
235 + 20. -/
def extendedByReturnRepair (minor : Nat) (hExtRet sRet : List Nat) :
    List Correction × List Nat :=
  if 3 < minor then
    let entries := (List.range 15).map fun i => sRet.getD (i + 1) 0
    if (List.range 15).any (fun i => hExtRet.getD i 0 != sRet.getD (i + 1) 0) then
      ([⟨235 + 20, 120, entries.map fun n => (n : ℚ)⟩], entries)
    else
      ([], hExtRet)
  else
    ([], hExtRet)

/-- The six recomputed real-world extrema in the order the repair writes
them at offset 179 (lasinfo.cpp 8119-8132): max_x, min_x, max_y, min_y,
max_z, min_z. -/
def bboxValues (h : Header) (s : Summary) : List ℚ :=
  [h.get_x s.max_X, h.get_x s.min_X, h.get_y s.max_Y, h.get_y s.min_Y,
   h.get_z s.max_Z, h.get_z s.min_Z]

/-- The repair-mode bounding box check (lasinfo.cpp 8111-8150): each of the
six recomputed extrema is compared for exact equality with the stored
header double; if any differs, all six doubles are written together as one
48-byte correction at offset 179.  Returns corrections and the six header
extrema after repair, in write order. -/
def bboxRepair (h : Header) (s : Summary) : List Correction × List ℚ :=
  if h.get_x s.max_X ≠ h.max_x ∨ h.get_x s.min_X ≠ h.min_x ∨
     h.get_y s.max_Y ≠ h.max_y ∨ h.get_y s.min_Y ≠ h.min_y ∨
     h.get_z s.max_Z ≠ h.max_z ∨ h.get_z s.min_Z ≠ h.min_z then
    ([⟨179, 48, bboxValues h s⟩], bboxValues h s)
  else
    ([], [h.max_x, h.min_x, h.max_y, h.min_y, h.max_z, h.min_z])

/-- Tag for each of the six one-sided check-only bounding box warnings. -/
inductive BBoxWarning
  | maxX
  | minX
  | maxY
  | minY
  | maxZ
  | minZ
deriving DecidableEq

/-- The check-only bounding box comparison (lasinfo.cpp 6755-6760 and
8151-8224): the header box enlarged by a quarter scale factor per axis is
computed up front, and a warning is emitted only when a recomputed extremum
lies beyond the enlarged box in the outward direction. -/
def bboxCheckWarnings (h : Header) (s : Summary) : List BBoxWarning :=
  let enlarged_min_x := h.min_x - 0.25 * h.x_scale_factor
  let enlarged_max_x := h.max_x + 0.25 * h.x_scale_factor
  let enlarged_min_y := h.min_y - 0.25 * h.y_scale_factor
  let enlarged_max_y := h.max_y + 0.25 * h.y_scale_factor
  let enlarged_min_z := h.min_z - 0.25 * h.z_scale_factor
  let enlarged_max_z := h.max_z + 0.25 * h.z_scale_factor
  (if h.get_x s.max_X > enlarged_max_x then [BBoxWarning.maxX] else []) ++
  (if h.get_x s.min_X < enlarged_min_x then [BBoxWarning.minX] else []) ++
  (if h.get_y s.max_Y > enlarged_max_y then [BBoxWarning.maxY] else []) ++
  (if h.get_y s.min_Y < enlarged_min_y then [BBoxWarning.minY] else []) ++
  (if h.get_z s.max_Z > enlarged_max_z then [BBoxWarning.maxZ] else []) ++
  (if h.get_z s.min_Z < enlarged_min_z then [BBoxWarning.minZ] else [])

/-- All corrections scheduled by one verification pass over one file, in
program order (lasinfo.cpp 7457-8224): legacy count, extended count, legacy
by-return block, extended by-return block, then the bounding box.  The list
g models the initial content of the 5-slot legacy by-return staging array. -/
def repairCorrections (h : Header) (s : Summary) (g : List Nat)
    (repair_bb repair_counters : Bool) : List Correction :=
  (if repair_counters then
    (legacyCountRepair h.point_data_format h.version_minor
        h.number_of_point_records s.number_of_point_records).1 ++
    (extendedCountRepair h.version_minor h.extended_number_of_point_records
        s.number_of_point_records).1 ++
    (legacyByReturnRepair h.point_data_format h.version_minor
        h.number_of_points_by_return s.number_of_points_by_return g).1 ++
    (extendedByReturnRepair h.version_minor h.extended_number_of_points_by_return
        s.number_of_points_by_return).1
  else []) ++
  (if repair_bb then (bboxRepair h s).1 else [])

/-- The header as left on disk after a repair pass: each repaired field
takes the value the corresponding check wrote. -/
def repairHeader (h : Header) (s : Summary) (g : List Nat)
    (repair_bb repair_counters : Bool) : Header :=
  let bb := (bboxRepair h s).2
  { h with
    number_of_point_records :=
      if repair_counters then
        (legacyCountRepair h.point_data_format h.version_minor
            h.number_of_point_records s.number_of_point_records).2
      else h.number_of_point_records
    extended_number_of_point_records :=
      if repair_counters then
        (extendedCountRepair h.version_minor h.extended_number_of_point_records
            s.number_of_point_records).2
      else h.extended_number_of_point_records
    number_of_points_by_return :=
      if repair_counters then
        (legacyByReturnRepair h.point_data_format h.version_minor
            h.number_of_points_by_return s.number_of_points_by_return g).2
      else h.number_of_points_by_return
    extended_number_of_points_by_return :=
      if repair_counters then
        (extendedByReturnRepair h.version_minor h.extended_number_of_points_by_return
            s.number_of_points_by_return).2
      else h.extended_number_of_points_by_return
    max_x := if repair_bb then bb.getD 0 0 else h.max_x
    min_x := if repair_bb then bb.getD 1 0 else h.min_x
    max_y := if repair_bb then bb.getD 2 0 else h.max_y
    min_y := if repair_bb then bb.getD 3 0 else h.min_y
    max_z := if repair_bb then bb.getD 4 0 else h.max_z
    min_z := if repair_bb then bb.getD 5 0 else h.min_z }

/-- C1: for point formats below 6, a mismatching legacy count is repaired by
the three-way policy of lasinfo.cpp 7460-7520: totals up to 2^32 - 1 are
written at offset 107; larger totals are warn-only under minor version < 4;
under minor version >= 4 the legacy field is zeroed unless already zero. -/
theorem C1_legacy_count_policy (fmt minor hLeg total : Nat)
    (hfmt : fmt < 6) (hne : total ≠ hLeg) :
    (legacyCountRepair fmt minor hLeg total).1 =
      if total ≤ 2 ^ 32 - 1 then [⟨107, 4, [(total : ℚ)]⟩]
      else if minor < 4 then []
      else if hLeg ≠ 0 then [⟨107, 4, [(0 : ℚ)]⟩]
      else [] := by
  simp only [legacyCountRepair, U32_MAX, if_pos (And.intro hfmt hne)]
  split_ifs <;> rfl

/-- Witness for C1 at the overflow boundary: a total of exactly 2^32 - 1
still takes the write-the-total path. -/
theorem C1_witness :
    (legacyCountRepair 1 2 5 (2 ^ 32 - 1)).1 = [⟨107, 4, [((2 ^ 32 - 1 : Nat) : ℚ)]⟩] := by
  rw [C1_legacy_count_policy 1 2 5 (2 ^ 32 - 1) (by omega) (by omega)]
  rw [if_pos (le_refl _)]

/-- C2: the bounding box check recomputes the six extrema as offset +
integer × scale; in repair mode an exact comparison failing on any of the
six schedules one 48-byte correction holding all six doubles at offset 179,
while check-only mode warns exactly when a recomputed value falls outside
the quarter-scale-enlarged header box. -/
theorem C2_bbox_repair_and_check (h : Header) (s : Summary) :
    ((bboxRepair h s).1 =
      if h.get_x s.max_X = h.max_x ∧ h.get_x s.min_X = h.min_x ∧
         h.get_y s.max_Y = h.max_y ∧ h.get_y s.min_Y = h.min_y ∧
         h.get_z s.max_Z = h.max_z ∧ h.get_z s.min_Z = h.min_z
       then []
       else [⟨179, 48, [h.get_x s.max_X, h.get_x s.min_X, h.get_y s.max_Y,
                        h.get_y s.min_Y, h.get_z s.max_Z, h.get_z s.min_Z]⟩]) ∧
    (bboxCheckWarnings h s = [] ↔
      h.get_x s.max_X ≤ h.max_x + 0.25 * h.x_scale_factor ∧
      h.min_x - 0.25 * h.x_scale_factor ≤ h.get_x s.min_X ∧
      h.get_y s.max_Y ≤ h.max_y + 0.25 * h.y_scale_factor ∧
      h.min_y - 0.25 * h.y_scale_factor ≤ h.get_y s.min_Y ∧
      h.get_z s.max_Z ≤ h.max_z + 0.25 * h.z_scale_factor ∧
      h.min_z - 0.25 * h.z_scale_factor ≤ h.get_z s.min_Z) := by
  constructor
  · simp only [bboxRepair, bboxValues]
    split_ifs <;> first | rfl | tauto
  · simp only [bboxCheckWarnings, List.append_eq_nil, ite_eq_right_iff,
      List.cons_ne_nil, imp_false, not_lt]
    tauto

/-- C10: a header bounding box strictly larger than the true extent on all
six sides produces no check-only warning (the one-sided enlarged-box tests
all pass), while repair mode still schedules the full six-double rewrite
because the exact comparisons differ. -/
theorem C10_oversized_header_box (h : Header) (s : Summary)
    (hxs : 0 ≤ h.x_scale_factor) (hys : 0 ≤ h.y_scale_factor) (hzs : 0 ≤ h.z_scale_factor)
    (h1 : h.get_x s.max_X < h.max_x) (h2 : h.min_x < h.get_x s.min_X)
    (h3 : h.get_y s.max_Y < h.max_y) (h4 : h.min_y < h.get_y s.min_Y)
    (h5 : h.get_z s.max_Z < h.max_z) (h6 : h.min_z < h.get_z s.min_Z) :
    bboxCheckWarnings h s = [] ∧ (bboxRepair h s).1 = [⟨179, 48, bboxValues h s⟩] := by
  have qx : (0 : ℚ) ≤ 0.25 * h.x_scale_factor := by positivity
  have qy : (0 : ℚ) ≤ 0.25 * h.y_scale_factor := by positivity
  have qz : (0 : ℚ) ≤ 0.25 * h.z_scale_factor := by positivity
  constructor
  · have c1 : ¬ (h.get_x s.max_X > h.max_x + 0.25 * h.x_scale_factor) := by
      simp only [gt_iff_lt, not_lt]; linarith
    have c2 : ¬ (h.get_x s.min_X < h.min_x - 0.25 * h.x_scale_factor) := by
      simp only [not_lt]; linarith
    have c3 : ¬ (h.get_y s.max_Y > h.max_y + 0.25 * h.y_scale_factor) := by
      simp only [gt_iff_lt, not_lt]; linarith
    have c4 : ¬ (h.get_y s.min_Y < h.min_y - 0.25 * h.y_scale_factor) := by
      simp only [not_lt]; linarith
    have c5 : ¬ (h.get_z s.max_Z > h.max_z + 0.25 * h.z_scale_factor) := by
      simp only [gt_iff_lt, not_lt]; linarith
    have c6 : ¬ (h.get_z s.min_Z < h.min_z - 0.25 * h.z_scale_factor) := by
      simp only [not_lt]; linarith
    simp only [bboxCheckWarnings, c1, c2, c3, c4, c5, c6, if_false,
      List.append_nil, ite_false]
  · simp only [bboxRepair]
    rw [if_pos (Or.inl (ne_of_lt h1))]

/-- Concrete file for the C10 witness: unit scale, zero offsets, true
extent 1..9 on each axis, header box 0..10 on each axis. -/
def hC10 : Header :=
  { point_data_format := 1, version_minor := 2, number_of_point_records := 0,
    number_of_points_by_return := [0, 0, 0, 0, 0],
    extended_number_of_point_records := 0,
    extended_number_of_points_by_return := [],
    x_scale_factor := 1, y_scale_factor := 1, z_scale_factor := 1,
    x_offset := 0, y_offset := 0, z_offset := 0,
    min_x := 0, max_x := 10, min_y := 0, max_y := 10, min_z := 0, max_z := 10,
    header_size := 227, number_of_variable_length_records := 0,
    vlr_record_lengths := [] }

/-- Summary for the C10 witness. -/
def sC10 : Summary :=
  { number_of_point_records := 0, number_of_points_by_return := [],
    min_X := 1, max_X := 9, min_Y := 1, max_Y := 9, min_Z := 1, max_Z := 9 }

/-- Witness for C10: on the concrete oversized header box, check-only mode
emits no warning while repair mode rewrites all six extrema. -/
theorem C10_witness :
    bboxCheckWarnings hC10 sC10 = [] ∧
      (bboxRepair hC10 sC10).1 = [⟨179, 48, bboxValues hC10 sC10⟩] :=
  C10_oversized_header_box hC10 sC10 (by norm_num [hC10]) (by norm_num [hC10])
    (by norm_num [hC10]) (by norm_num [hC10, sC10, Header.get_x])
    (by norm_num [hC10, sC10, Header.get_x]) (by norm_num [hC10, sC10, Header.get_y])
    (by norm_num [hC10, sC10, Header.get_y]) (by norm_num [hC10, sC10, Header.get_z])
    (by norm_num [hC10, sC10, Header.get_z])

/-- C4: for point formats >= 6 a non-zero legacy count field is zeroed by a
4-byte correction at offset 107 regardless of the accumulated total
(lasinfo.cpp 7561-7566); when the extended 64-bit count already equals the
total, the two count checks together schedule exactly that one correction
and leave the extended field unwritten (lasinfo.cpp 7595-7629). -/
theorem C4_format6_legacy_zeroed (h : Header) (s : Summary) (g : List Nat)
    (hfmt : 6 ≤ h.point_data_format) (hnz : h.number_of_point_records ≠ 0) :
    (⟨107, 4, [(0 : ℚ)]⟩ ∈ repairCorrections h s g false true) ∧
    (h.extended_number_of_point_records = s.number_of_point_records →
      (legacyCountRepair h.point_data_format h.version_minor h.number_of_point_records
          s.number_of_point_records).1 ++
        (extendedCountRepair h.version_minor h.extended_number_of_point_records
          s.number_of_point_records).1 = [⟨107, 4, [(0 : ℚ)]⟩]) := by
  have hnlt : ¬ (h.point_data_format < 6 ∧
      s.number_of_point_records ≠ h.number_of_point_records) := by
    rintro ⟨hlt, -⟩
    omega
  have hleg : (legacyCountRepair h.point_data_format h.version_minor
      h.number_of_point_records s.number_of_point_records).1 = [⟨107, 4, [(0 : ℚ)]⟩] := by
    simp only [legacyCountRepair, if_neg hnlt, if_pos (And.intro hfmt hnz)]
  constructor
  · simp [repairCorrections, hleg]
  · intro hext
    have hextc : (extendedCountRepair h.version_minor h.extended_number_of_point_records
        s.number_of_point_records).1 = [] := by
      have : ¬ (s.number_of_point_records ≠ h.extended_number_of_point_records) := by
        simp [hext]
      simp only [extendedCountRepair]
      split_ifs <;> simp_all
    rw [hleg, hextc, List.append_nil]

/-- Concrete file for the C4 witness: point format 7, legacy count field 42,
extended count field equal to the accumulated total. -/
def hC4 : Header :=
  { point_data_format := 7, version_minor := 4, number_of_point_records := 42,
    number_of_points_by_return := [0, 0, 0, 0, 0],
    extended_number_of_point_records := 95,
    extended_number_of_points_by_return := [95, 0, 0, 0, 0, 0, 0, 0, 0, 0, 0, 0, 0, 0, 0],
    x_scale_factor := 1, y_scale_factor := 1, z_scale_factor := 1,
    x_offset := 0, y_offset := 0, z_offset := 0,
    min_x := 0, max_x := 0, min_y := 0, max_y := 0, min_z := 0, max_z := 0,
    header_size := 375, number_of_variable_length_records := 0,
    vlr_record_lengths := [] }

/-- Summary for the C4 witness. -/
def sC4 : Summary :=
  { number_of_point_records := 95,
    number_of_points_by_return := [0, 95, 0, 0, 0, 0, 0, 0, 0, 0, 0, 0, 0, 0, 0, 0],
    min_X := 0, max_X := 0, min_Y := 0, max_Y := 0, min_Z := 0, max_Z := 0 }

/-- Witness for C4: the concrete format-7 file gets its legacy count zeroed
and no extended-count correction. -/
theorem C4_witness :
    (⟨107, 4, [(0 : ℚ)]⟩ ∈ repairCorrections hC4 sC4 [] false true) ∧
      (legacyCountRepair hC4.point_data_format hC4.version_minor
          hC4.number_of_point_records sC4.number_of_point_records).1 ++
        (extendedCountRepair hC4.version_minor hC4.extended_number_of_point_records
          sC4.number_of_point_records).1 = [⟨107, 4, [(0 : ℚ)]⟩] := by
  have h := C4_format6_legacy_zeroed hC4 sC4 [] (by decide) (by decide)
  exact ⟨h.1, h.2 (by decide)⟩

/-- Concrete file exhibiting the repair-idempotence failure of C3: a point
format 6 file whose legacy by-return bucket 1 is wrongly non-zero while
bucket 2 is correctly zero but has a non-zero accumulated count.  All other
header fields already agree with the accumulated truth. -/
def hC3 : Header :=
  { point_data_format := 6, version_minor := 4, number_of_point_records := 0,
    number_of_points_by_return := [7, 0, 0, 0, 0],
    extended_number_of_point_records := 5,
    extended_number_of_points_by_return := [0, 5, 0, 0, 0, 0, 0, 0, 0, 0, 0, 0, 0, 0, 0],
    x_scale_factor := 1, y_scale_factor := 1, z_scale_factor := 1,
    x_offset := 0, y_offset := 0, z_offset := 0,
    min_x := 0, max_x := 0, min_y := 0, max_y := 0, min_z := 0, max_z := 0,
    header_size := 375, number_of_variable_length_records := 0,
    vlr_record_lengths := [] }

/-- Summary for the C3 failing input: five points, all with return number 2. -/
def sC3 : Summary :=
  { number_of_point_records := 5,
    number_of_points_by_return := [0, 0, 5, 0, 0, 0, 0, 0, 0, 0, 0, 0, 0, 0, 0, 0],
    min_X := 0, max_X := 0, min_Y := 0, max_Y := 0, min_Z := 0, max_Z := 0 }

/-- C3 fails on the code: the first repair pass writes the live accumulated
count (5) into legacy by-return bucket 2 - which, for point format >= 6,
must be zero and already was - because the staging slot of an untouched
bucket is filled with the summary value (lasinfo.cpp 7731) before the whole
5-bucket block is written.  A second check pass over the repaired header
therefore schedules another by-return correction instead of none. -/
theorem C3_second_check_not_empty :
    repairCorrections (repairHeader hC3 sC3 [] true true) sC3 [] true true =
      [⟨111, 20, [(0 : ℚ), 0, 0, 0, 0]⟩] := by
  simp [repairCorrections, repairHeader, legacyCountRepair, extendedCountRepair,
    legacyByReturnRepair, legacyByReturnBucket, extendedByReturnRepair,
    bboxRepair, bboxValues, Header.get_x, Header.get_y, Header.get_z,
    hC3, sC3, List.range_succ, U32_MAX]

/-- Modelled from the spec: the quantizer maps a real value to its nearest
integer (the integer-rounding macro used by valid_resolution lives outside
this repository; ties cannot matter below the 0.001 tolerance). -/
def i64_quantize (x : ℚ) : ℤ := round x

/-- The coordinate resolution validator (lasinfo.cpp 182-190): back-computes
the fixed-precision multiplier of a stored coordinate and accepts when it
is within 0.001 of its quantized integer. -/
def valid_resolution (coordinate offset scale_factor : ℚ) : Bool :=
  let coordinate_without_offset := coordinate - offset
  let fixed_precision_multiplier := coordinate_without_offset / scale_factor
  let quantized_fixed_precision_multiplier := i64_quantize fixed_precision_multiplier
  if |fixed_precision_multiplier - (quantized_fixed_precision_multiplier : ℚ)| < 0.001 then
    true
  else false

/-- A rational within 1/2 of an integer rounds to that integer. -/
theorem round_eq_of_close {x : ℚ} {k : ℤ} (h : |x - (k : ℚ)| < 1 / 2) : round x = k := by
  rw [abs_sub_lt_iff] at h
  rw [round_eq]
  refine Int.floor_eq_iff.mpr ⟨?_, ?_⟩
  · linarith [h.1, h.2]
  · linarith [h.1, h.2]

/-- The validator accepts exactly when the back-computed multiplier is
within 0.001 of some integer. -/
theorem valid_resolution_eq_true_iff (c o s : ℚ) :
    valid_resolution c o s = true ↔ ∃ k : ℤ, |(c - o) / s - (k : ℚ)| < 0.001 := by
  simp only [valid_resolution, i64_quantize]
  constructor
  · intro hv
    split_ifs at hv with hcond
    exact ⟨round ((c - o) / s), hcond⟩
  · rintro ⟨k, hk⟩
    have hr : round ((c - o) / s) = k := round_eq_of_close (hk.trans (by norm_num))
    rw [if_pos (by rw [hr]; exact hk)]

/-- C5: the quantization validator returns true iff the back-computed
multiplier (coordinate - offset) / scale is within 0.001 of an integer; a
coordinate offset + n scale + 0.0009 scale is accepted and one at
offset + n scale + 0.002 scale is rejected, the result being a Bool in
either case. -/
theorem C5_quantization_validator (c o s : ℚ) (hs : s ≠ 0) :
    (valid_resolution c o s = true ↔ ∃ k : ℤ, |(c - o) / s - (k : ℚ)| < 0.001) ∧
    (∀ n : ℤ, valid_resolution (o + n * s + 0.0009 * s) o s = true) ∧
    (∀ n : ℤ, valid_resolution (o + n * s + 0.002 * s) o s = false) := by
  refine ⟨valid_resolution_eq_true_iff c o s, ?_, ?_⟩
  · intro n
    have hm : (o + n * s + 0.0009 * s - o) / s = (n : ℚ) + 0.0009 := by
      field_simp
      ring
    have habs : ((n : ℚ) + 0.0009) - (n : ℚ) = 0.0009 := by ring
    have hr : round ((n : ℚ) + 0.0009) = n := by
      apply round_eq_of_close
      rw [habs]
      rw [abs_of_nonneg (by norm_num)]
      norm_num
    simp only [valid_resolution, i64_quantize, hm, hr, habs]
    rw [if_pos (by rw [abs_of_nonneg (by norm_num)]; norm_num)]
  · intro n
    have hm : (o + n * s + 0.002 * s - o) / s = (n : ℚ) + 0.002 := by
      field_simp
      ring
    have habs : ((n : ℚ) + 0.002) - (n : ℚ) = 0.002 := by ring
    have hr : round ((n : ℚ) + 0.002) = n := by
      apply round_eq_of_close
      rw [habs]
      rw [abs_of_nonneg (by norm_num)]
      norm_num
    simp only [valid_resolution, i64_quantize, hm, hr, habs]
    rw [if_neg (by rw [abs_of_nonneg (by norm_num)]; norm_num)]

/-- Witness for C5 with offset 0, scale 1, n = 3: coordinate 3.0009 is
accepted, coordinate 3.002 is rejected. -/
theorem C5_witness :
    valid_resolution (0 + (3 : ℤ) * 1 + 0.0009 * 1) 0 1 = true ∧
      valid_resolution (0 + (3 : ℤ) * 1 + 0.002 * 1) 0 1 = false := by
  have h := C5_quantization_validator 0 0 1 (by norm_num)
  exact ⟨h.2.1 3, h.2.2 3⟩

/-- The three sub-header fields of a 54-byte variable length record header
that the tool can edit in place. -/
inductive VlrField
  | user_id
  | record_id
  | description
deriving DecidableEq

/-- Fixed offset of an editable field inside the 54-byte record sub-header
(lasinfo.cpp 857, 876, 895). -/
def VlrField.subOffset : VlrField → Nat
  | .user_id => 2
  | .record_id => 18
  | .description => 22

/-- Byte width written for an editable field (lasinfo.cpp 1113-1145: 16
characters, one 2-byte integer, 32 characters). -/
def VlrField.width : VlrField → Nat
  | .user_id => 16
  | .record_id => 2
  | .description => 32

/-- Start offset of record idx: the walk from header_size accumulating
54 + body length per preceding record (lasinfo.cpp 852-856). -/
def vlrStart (header_size : Nat) (lens : List Nat) (idx : Nat) : Nat :=
  header_size + (lens.take idx).foldl (fun pos len => pos + 54 + len) 0

/-- The record locator: absolute byte position of an editable field of
record idx, or none when idx is not below the declared record count
(lasinfo.cpp 845-901). -/
def locateVlrField (h : Header) (idx : Nat) (f : VlrField) : Option Nat :=
  if idx < h.number_of_variable_length_records then
    some (vlrStart h.header_size h.vlr_record_lengths idx + f.subOffset)
  else
    none

/-- The correction a requested record edit schedules: nothing at all when
the locator failed (the write at lasinfo.cpp 1113-1145 is guarded by the
position being set). -/
def vlrEditCorrection (h : Header) (idx : Option Nat) (f : VlrField) : List Correction :=
  match idx with
  | none => []
  | some i =>
    match locateVlrField h i f with
    | some p => [⟨p, f.width, []⟩]
    | none => []

/-- The record walk equals the sum of 54 + body length over the preceding
records. -/
theorem vlrStart_take_sum (lens : List Nat) (idx : Nat) (hidx : idx ≤ lens.length) :
    (lens.take idx).foldl (fun pos len => pos + 54 + len) 0 =
      ∑ k ∈ Finset.range idx, (54 + lens.getD k 0) := by
  induction idx with
  | zero => simp
  | succ n ih =>
    have hlt : n < lens.length := hidx
    rw [List.take_succ, List.foldl_append, ih (Nat.le_of_lt hlt),
      Finset.sum_range_succ, List.getElem?_eq_getElem hlt]
    simp [List.getD, List.getElem?_eq_getElem hlt]
    omega

/-- C6: for a requested record index below the declared count, the locator
returns header_size plus the sum over preceding records of 54 + body
length, plus 2 / 18 / 22 for the identifier / record type / description
field; for an index not below the count it reports not-found and the edit
writes nothing. -/
theorem C6_record_locator (h : Header) (idx : Nat) (f : VlrField)
    (hlen : h.vlr_record_lengths.length = h.number_of_variable_length_records) :
    (idx < h.number_of_variable_length_records →
      locateVlrField h idx VlrField.user_id =
        some (h.header_size +
          (∑ k ∈ Finset.range idx, (54 + h.vlr_record_lengths.getD k 0)) + 2) ∧
      locateVlrField h idx VlrField.record_id =
        some (h.header_size +
          (∑ k ∈ Finset.range idx, (54 + h.vlr_record_lengths.getD k 0)) + 18) ∧
      locateVlrField h idx VlrField.description =
        some (h.header_size +
          (∑ k ∈ Finset.range idx, (54 + h.vlr_record_lengths.getD k 0)) + 22)) ∧
    (h.number_of_variable_length_records ≤ idx →
      locateVlrField h idx f = none ∧ vlrEditCorrection h (some idx) f = []) := by
  constructor
  · intro hidx
    have hsum := vlrStart_take_sum h.vlr_record_lengths idx (by omega)
    refine ⟨?_, ?_, ?_⟩ <;>
      simp [locateVlrField, vlrStart, hidx, hsum, VlrField.subOffset]
  · intro hidx
    have hnone : locateVlrField h idx f = none := by
      simp [locateVlrField, Nat.not_lt.mpr hidx]
    exact ⟨hnone, by simp [vlrEditCorrection, hnone]⟩

/-- Concrete file for the C6 witness: three records declared, edit
requested on index 5. -/
def hC6 : Header :=
  { point_data_format := 1, version_minor := 2, number_of_point_records := 0,
    number_of_points_by_return := [0, 0, 0, 0, 0],
    extended_number_of_point_records := 0,
    extended_number_of_points_by_return := [],
    x_scale_factor := 1, y_scale_factor := 1, z_scale_factor := 1,
    x_offset := 0, y_offset := 0, z_offset := 0,
    min_x := 0, max_x := 0, min_y := 0, max_y := 0, min_z := 0, max_z := 0,
    header_size := 227, number_of_variable_length_records := 3,
    vlr_record_lengths := [10, 20, 30] }

/-- Witness for C6: requesting record index 5 among 3 records yields
not-found and no scheduled write. -/
theorem C6_witness :
    locateVlrField hC6 5 VlrField.user_id = none ∧
      vlrEditCorrection hC6 (some 5) VlrField.user_id = [] :=
  (C6_record_locator hC6 5 VlrField.user_id (by decide)).2 (by decide)

/-- Observable I/O events of one file's processing: a point read from the
stream, the refusal of repair on a non-seekable input, and an in-place
header write. -/
inductive Event
  | pointRead
  | refuseRepair
  | headerWrite (pos width : Nat)
deriving DecidableEq

/-- The order of one file's processing (lasinfo.cpp run): the point loop
(6782-6850) reads every point, the reader is closed (7432), then a
requested repair on piped, merged or buffered input is refused and the
repair flags are cleared (7436-7449), and only then do the cross-checks
perform their writes (7457-8224). -/
def runTrace (piped merged buffered repair_bb repair_counters check_points : Bool)
    (numPoints : Nat) (h : Header) (s : Summary) (g : List Nat) : List Event :=
  let nonseekable := piped || merged || buffered
  let rb := if nonseekable then false else repair_bb
  let rc := if nonseekable then false else repair_counters
  (if check_points then List.replicate numPoints Event.pointRead else []) ++
  (if (repair_bb || repair_counters) && nonseekable then [Event.refuseRepair] else []) ++
  (if check_points then
    (repairCorrections h s g rb rc).map fun c => Event.headerWrite c.pos c.width
  else [])

/-- Trivial file used by the C7 theorems. -/
def hC7 : Header :=
  { point_data_format := 1, version_minor := 2, number_of_point_records := 0,
    number_of_points_by_return := [0, 0, 0, 0, 0],
    extended_number_of_point_records := 0,
    extended_number_of_points_by_return := [],
    x_scale_factor := 1, y_scale_factor := 1, z_scale_factor := 1,
    x_offset := 0, y_offset := 0, z_offset := 0,
    min_x := 0, max_x := 0, min_y := 0, max_y := 0, min_z := 0, max_z := 0,
    header_size := 227, number_of_variable_length_records := 0,
    vlr_record_lengths := [] }

/-- Summary for the C7 theorems. -/
def sC7 : Summary :=
  { number_of_point_records := 1,
    number_of_points_by_return := [0, 1, 0, 0, 0, 0, 0, 0, 0, 0, 0, 0, 0, 0, 0, 0],
    min_X := 0, max_X := 0, min_Y := 0, max_Y := 0, min_Z := 0, max_Z := 0 }

/-- C7 as stated is false on the code: on a piped input with repair
requested, a point is read before the refusal happens - the refusal event
appears only after the whole read pass, so a pointRead lies in the trace
prefix strictly before refuseRepair. -/
theorem C7_counterexample :
    Event.refuseRepair ∈ runTrace true false false true true true 1 hC7 sC7 [] ∧
      Event.pointRead ∈ (runTrace true false false true true true 1 hC7 sC7 []).takeWhile
        (fun e => e != Event.refuseRepair) := by
  decide

/-- C7 amended: on a piped, merged or buffered input with repair requested,
the trace is exactly the read pass followed by the refusal - the refusal
comes after the reads but before any write, and no header byte is ever
written. -/
theorem C7_refusal_after_reads_before_writes
    (piped merged buffered repair_bb repair_counters : Bool) (n : Nat)
    (h : Header) (s : Summary) (g : List Nat)
    (hns : (piped || merged || buffered) = true)
    (hrep : (repair_bb || repair_counters) = true) :
    runTrace piped merged buffered repair_bb repair_counters true n h s g =
      List.replicate n Event.pointRead ++ [Event.refuseRepair] := by
  simp [runTrace, hns, hrep, repairCorrections]

/-- Witness for C7 amended: a piped two-point file with both repairs
requested reads both points, refuses, and writes nothing. -/
theorem C7_witness :
    runTrace true false false true true true 2 hC7 sC7 [] =
      List.replicate 2 Event.pointRead ++ [Event.refuseRepair] :=
  C7_refusal_after_reads_before_writes true false false true true 2 hC7 sC7 [] rfl rfl

/-- Concrete file for the C8 counterexample: format 1, by-return bucket 1
wrong (3 declared, 5 real) while bucket 2 is already correct (7 = 7); the
scalar count agrees. -/
def hC8 : Header :=
  { point_data_format := 1, version_minor := 2, number_of_point_records := 12,
    number_of_points_by_return := [3, 7, 0, 0, 0],
    extended_number_of_point_records := 0,
    extended_number_of_points_by_return := [],
    x_scale_factor := 1, y_scale_factor := 1, z_scale_factor := 1,
    x_offset := 0, y_offset := 0, z_offset := 0,
    min_x := 0, max_x := 0, min_y := 0, max_y := 0, min_z := 0, max_z := 0,
    header_size := 227, number_of_variable_length_records := 0,
    vlr_record_lengths := [] }

/-- Summary for the C8 counterexample: 12 points, 5 of return 1 and 7 of
return 2. -/
def sC8 : Summary :=
  { number_of_point_records := 12,
    number_of_points_by_return := [0, 5, 7, 0, 0, 0, 0, 0, 0, 0, 0, 0, 0, 0, 0, 0],
    min_X := 0, max_X := 0, min_Y := 0, max_Y := 0, min_Z := 0, max_Z := 0 }

/-- C8 as stated is false on the code: by-return bucket 1 (zero-based,
bytes 115..118) already equals the accumulated truth, yet the single
scheduled correction - the whole 5-bucket block at offset 111 - covers its
byte range, because one wrong bucket triggers a 20-byte write of the whole
family. -/
theorem C8_counterexample :
    hC8.number_of_points_by_return.getD 1 0 = sC8.number_of_points_by_return.getD 2 0 ∧
    repairCorrections hC8 sC8 [0, 0, 0, 0, 0] false true =
      [⟨111, 20, [5, 7, 0, 0, 0]⟩] ∧
    (∀ c ∈ repairCorrections hC8 sC8 [0, 0, 0, 0, 0] false true,
      c.pos ≤ 115 ∧ 115 + 4 ≤ c.pos + c.width) := by
  have h2 : repairCorrections hC8 sC8 [0, 0, 0, 0, 0] false true =
      [⟨111, 20, [5, 7, 0, 0, 0]⟩] := by
    simp [repairCorrections, legacyCountRepair, extendedCountRepair,
      legacyByReturnRepair, legacyByReturnBucket, extendedByReturnRepair,
      hC8, sC8, List.range_succ, U32_MAX]
  refine ⟨by decide, h2, ?_⟩
  intro c hc
  rw [h2] at hc
  simp only [List.mem_singleton] at hc
  subst hc
  exact ⟨by decide, by decide⟩

/-- C8 amended: wrongness is decided independently per bucket, but
corrections are block-granular in both families - one write of the whole
5-bucket legacy block at offset 111, and one write of the whole 15-bucket
extended block at offset 255, whenever any bucket of that family is wrong -
so they cover buckets that were already correct; for a format < 6 legacy
bucket whose 32-bit header value equals the accumulated truth, and for any
extended bucket whose header value equals the truth, the value rewritten at
its slot equals the existing header value. -/
theorem C8_family_block_write (fmt minor : Nat) (hRet sRet g hExtRet : List Nat)
    (j : Nat) (hj : j < 5) (hfmt : fmt < 6) (hsize : hRet.getD j 0 < 2 ^ 32)
    (hok : hRet.getD j 0 = sRet.getD (j + 1) 0)
    (k : Nat) (hk : k < 15) (hokx : hExtRet.getD k 0 = sRet.getD (k + 1) 0) :
    (∀ c ∈ (legacyByReturnRepair fmt minor hRet sRet g).1,
      c.pos = 111 ∧ c.width = 20 ∧ c.values.getD j 0 = (hRet.getD j 0 : ℚ)) ∧
    (∀ c ∈ (extendedByReturnRepair minor hExtRet sRet).1,
      c.pos = 255 ∧ c.width = 120 ∧ c.values.getD k 0 = (hExtRet.getD k 0 : ℚ)) := by
  constructor
  · intro c hc
    simp only [legacyByReturnRepair] at hc
    split_ifs at hc with hw
    · simp only [List.mem_singleton] at hc
      subst hc
      refine ⟨rfl, rfl, ?_⟩
      have hbucket : (legacyByReturnBucket fmt minor (hRet.getD j 0)
          (sRet.getD (j + 1) 0) (g.getD j 0)).1 = hRet.getD j 0 := by
        simp only [legacyByReturnBucket]
        rw [if_neg (show ¬ (fmt < 6 ∧ hRet.getD j 0 ≠ sRet.getD (j + 1) 0) from by
              rintro ⟨-, hne⟩
              exact hne hok),
          if_neg (show ¬ (6 ≤ fmt ∧ hRet.getD j 0 ≠ 0) from by
              rintro ⟨hge, -⟩
              omega)]
        rw [← hok]
        exact Nat.mod_eq_of_lt hsize
      interval_cases j <;> simp [List.range_succ] <;> simpa using hbucket
    · simp at hc
  · intro c hc
    simp only [extendedByReturnRepair] at hc
    split_ifs at hc with hm hw
    · simp only [List.mem_singleton] at hc
      subst hc
      refine ⟨by norm_num, rfl, ?_⟩
      rw [hokx]
      interval_cases k <;> simp [List.range_succ]
    · simp at hc
    · simp at hc

/-- Witness for C8 amended: on a concrete minor-1.4 file with a wrong
legacy bucket 1 and a wrong extended bucket 2, the scheduled legacy block
rewrites the correct legacy bucket 1 slot with its existing value 7, and
the scheduled extended block rewrites the correct extended bucket 0 slot
with its existing value 5. -/
theorem C8_witness :
    ((⟨111, 20, [5, 7, 0, 0, 0]⟩ : Correction).pos = 111 ∧
      (⟨111, 20, [5, 7, 0, 0, 0]⟩ : Correction).width = 20 ∧
      (⟨111, 20, [5, 7, 0, 0, 0]⟩ : Correction).values.getD 1 0 =
        (([3, 7, 0, 0, 0] : List Nat).getD 1 0 : ℚ)) ∧
    ((⟨255, 120, [5, 7, 0, 0, 0, 0, 0, 0, 0, 0, 0, 0, 0, 0, 0]⟩ : Correction).pos = 255 ∧
      (⟨255, 120, [5, 7, 0, 0, 0, 0, 0, 0, 0, 0, 0, 0, 0, 0, 0]⟩ : Correction).width = 120 ∧
      (⟨255, 120, [5, 7, 0, 0, 0, 0, 0, 0, 0, 0, 0, 0, 0, 0, 0]⟩ : Correction).values.getD 0 0 =
        (([5, 9, 0, 0, 0, 0, 0, 0, 0, 0, 0, 0, 0, 0, 0] : List Nat).getD 0 0 : ℚ)) := by
  have h := C8_family_block_write 1 4 [3, 7, 0, 0, 0]
    [0, 5, 7, 0, 0, 0, 0, 0, 0, 0, 0, 0, 0, 0, 0, 0] [0, 0, 0, 0, 0]
    [5, 9, 0, 0, 0, 0, 0, 0, 0, 0, 0, 0, 0, 0, 0] 1
    (by decide) (by decide) (by decide) (by decide) 0 (by decide) (by decide)
  refine ⟨h.1 ⟨111, 20, [5, 7, 0, 0, 0]⟩ ?_,
    h.2 ⟨255, 120, [5, 7, 0, 0, 0, 0, 0, 0, 0, 0, 0, 0, 0, 0, 0]⟩ ?_⟩
  · simp [legacyByReturnRepair, legacyByReturnBucket, List.range_succ, U32_MAX]
  · simp [extendedByReturnRepair, List.range_succ]

/-- Two corrections touch disjoint byte ranges. -/
def Correction.rangesDisjoint (c d : Correction) : Prop :=
  c.pos + c.width ≤ d.pos ∨ d.pos + d.width ≤ c.pos

/-- Everything one pass may schedule: the header repairs plus the three
requested record sub-header edits. -/
def allCorrections (h : Header) (s : Summary) (g : List Nat) (rb rc : Bool)
    (editU editR editD : Option Nat) : List Correction :=
  repairCorrections h s g rb rc ++
  vlrEditCorrection h editU VlrField.user_id ++
  vlrEditCorrection h editR VlrField.record_id ++
  vlrEditCorrection h editD VlrField.description

/-- A list with at most one element is vacuously pairwise disjoint. -/
theorem pairwise_of_length_le_one {l : List Correction} (h : l.length ≤ 1) :
    l.Pairwise Correction.rangesDisjoint := by
  match l with
  | [] => exact List.Pairwise.nil
  | [a] => simp
  | a :: b :: t => simp at h

/-- Any legacy count correction sits at bytes 107..110. -/
theorem legacyCountRepair_mem {fmt minor hLeg total : Nat} {c : Correction}
    (hc : c ∈ (legacyCountRepair fmt minor hLeg total).1) :
    c.pos = 107 ∧ c.width = 4 := by
  simp only [legacyCountRepair] at hc
  split_ifs at hc <;> simp_all

/-- The legacy count check schedules at most one correction. -/
theorem legacyCountRepair_len {fmt minor hLeg total : Nat} :
    (legacyCountRepair fmt minor hLeg total).1.length ≤ 1 := by
  simp only [legacyCountRepair]
  split_ifs <;> simp

/-- Any extended count correction sits at bytes 247..254, and only for
minor version > 3. -/
theorem extendedCountRepair_mem {minor hExt total : Nat} {c : Correction}
    (hc : c ∈ (extendedCountRepair minor hExt total).1) :
    c.pos = 235 + 12 ∧ c.width = 8 ∧ 3 < minor := by
  simp only [extendedCountRepair] at hc
  split_ifs at hc <;> simp_all

/-- The extended count check schedules at most one correction. -/
theorem extendedCountRepair_len {minor hExt total : Nat} :
    (extendedCountRepair minor hExt total).1.length ≤ 1 := by
  simp only [extendedCountRepair]
  split_ifs <;> simp

/-- Any legacy by-return correction sits at bytes 111..130. -/
theorem legacyByReturnRepair_mem {fmt minor : Nat} {hRet sRet g : List Nat} {c : Correction}
    (hc : c ∈ (legacyByReturnRepair fmt minor hRet sRet g).1) :
    c.pos = 111 ∧ c.width = 20 := by
  simp only [legacyByReturnRepair] at hc
  split_ifs at hc <;> simp_all

/-- The legacy by-return check schedules at most one correction. -/
theorem legacyByReturnRepair_len {fmt minor : Nat} {hRet sRet g : List Nat} :
    (legacyByReturnRepair fmt minor hRet sRet g).1.length ≤ 1 := by
  simp only [legacyByReturnRepair]
  split_ifs <;> simp

/-- Any extended by-return correction sits at bytes 255..374, and only for
minor version > 3. -/
theorem extendedByReturnRepair_mem {minor : Nat} {hExtRet sRet : List Nat} {c : Correction}
    (hc : c ∈ (extendedByReturnRepair minor hExtRet sRet).1) :
    c.pos = 235 + 20 ∧ c.width = 120 ∧ 3 < minor := by
  simp only [extendedByReturnRepair] at hc
  split_ifs at hc <;> simp_all

/-- The extended by-return check schedules at most one correction. -/
theorem extendedByReturnRepair_len {minor : Nat} {hExtRet sRet : List Nat} :
    (extendedByReturnRepair minor hExtRet sRet).1.length ≤ 1 := by
  simp only [extendedByReturnRepair]
  split_ifs <;> simp

/-- Any bounding box correction sits at bytes 179..226. -/
theorem bboxRepair_mem {h : Header} {s : Summary} {c : Correction}
    (hc : c ∈ (bboxRepair h s).1) : c.pos = 179 ∧ c.width = 48 := by
  simp only [bboxRepair] at hc
  split_ifs at hc <;> simp_all

/-- The bounding box check schedules at most one correction. -/
theorem bboxRepair_len {h : Header} {s : Summary} :
    (bboxRepair h s).1.length ≤ 1 := by
  simp only [bboxRepair]
  split_ifs <;> simp

/-- A record edit correction lies at the located field position of a record
index below the declared count. -/
theorem vlrEditCorrection_mem {h : Header} {idx : Option Nat} {f : VlrField} {c : Correction}
    (hc : c ∈ vlrEditCorrection h idx f) :
    ∃ i, idx = some i ∧ i < h.number_of_variable_length_records ∧
      c.pos = vlrStart h.header_size h.vlr_record_lengths i + f.subOffset ∧
      c.width = f.width := by
  cases idx with
  | none => simp [vlrEditCorrection] at hc
  | some i =>
    refine ⟨i, rfl, ?_⟩
    simp only [vlrEditCorrection, locateVlrField] at hc
    split_ifs at hc with hi
    · simp only [List.mem_singleton] at hc
      subst hc
      exact ⟨hi, rfl, rfl⟩
    · simp at hc

/-- A record edit schedules at most one correction. -/
theorem vlrEditCorrection_len {h : Header} {idx : Option Nat} {f : VlrField} :
    (vlrEditCorrection h idx f).length ≤ 1 := by
  cases idx with
  | none => simp [vlrEditCorrection]
  | some i =>
    simp only [vlrEditCorrection, locateVlrField]
    split_ifs <;> simp

/-- The record walk never moves backwards past its starting point. -/
theorem foldl_vlr_ge (l : List Nat) (a : Nat) :
    a ≤ l.foldl (fun pos len => pos + 54 + len) a := by
  induction l generalizing a with
  | nil => exact Nat.le_refl a
  | cons x xs ih =>
    simp only [List.foldl_cons]
    exact le_trans (by omega) (ih (a + 54 + x))

/-- A record start offset is at least the header size. -/
theorem vlrStart_ge (hs : Nat) (lens : List Nat) (i : Nat) :
    hs ≤ vlrStart hs lens i := by
  have := foldl_vlr_ge (lens.take i) 0
  simp only [vlrStart]
  omega

/-- Record starts are monotone in the index. -/
theorem vlrStart_le_succ (hs : Nat) (lens : List Nat) (i : Nat) :
    vlrStart hs lens i ≤ vlrStart hs lens (i + 1) := by
  simp only [vlrStart, List.take_succ, List.foldl_append]
  cases hx : lens[i]? with
  | none => simp
  | some a =>
    simp only [Option.toList_some, List.foldl_cons, List.foldl_nil]
    omega

/-- Record starts are monotone in the index. -/
theorem vlrStart_mono (hs : Nat) (lens : List Nat) {i j : Nat} (hij : i ≤ j) :
    vlrStart hs lens i ≤ vlrStart hs lens j := by
  induction j with
  | zero =>
    have : i = 0 := Nat.le_zero.mp hij
    subst this
    exact Nat.le_refl _
  | succ n ih =>
    rcases Nat.lt_or_ge i (n + 1) with hlt | hge
    · exact le_trans (ih (Nat.lt_succ_iff.mp hlt)) (vlrStart_le_succ hs lens n)
    · have : i = n + 1 := Nat.le_antisymm hij hge
      subst this
      exact Nat.le_refl _

/-- A record occupying index i ends (including its full 54-byte sub-header)
no later than the start of any later record. -/
theorem vlrStart_gap (hs : Nat) (lens : List Nat) {i j : Nat} (hij : i < j)
    (hi : i < lens.length) :
    vlrStart hs lens i + 54 ≤ vlrStart hs lens j := by
  have hstep : vlrStart hs lens i + 54 ≤ vlrStart hs lens (i + 1) := by
    simp only [vlrStart, List.take_succ, List.foldl_append,
      List.getElem?_eq_getElem hi, Option.toList_some, List.foldl_cons, List.foldl_nil]
    omega
  exact le_trans hstep (vlrStart_mono hs lens hij)

/-- Every editable field fits inside the 54-byte record sub-header. -/
theorem vlrField_inside (f : VlrField) : f.subOffset + f.width ≤ 54 := by
  cases f <;> decide

/-- Field ranges of two record edits are disjoint whenever the targets
differ in record index or in field. -/
theorem vlr_positions_disjoint (hs : Nat) (lens : List Nat) (f₁ f₂ : VlrField)
    {i₁ i₂ : Nat} (h₁ : i₁ < lens.length) (h₂ : i₂ < lens.length)
    (hne : i₁ ≠ i₂ ∨ f₁ ≠ f₂) :
    vlrStart hs lens i₁ + f₁.subOffset + f₁.width ≤ vlrStart hs lens i₂ + f₂.subOffset ∨
      vlrStart hs lens i₂ + f₂.subOffset + f₂.width ≤ vlrStart hs lens i₁ + f₁.subOffset := by
  rcases Nat.lt_trichotomy i₁ i₂ with hlt | heq | hgt
  · left
    have hgap := vlrStart_gap hs lens hlt h₁
    have hin := vlrField_inside f₁
    have hpos := Nat.zero_le f₂.subOffset
    omega
  · subst heq
    rcases hne with hi | hf
    · exact absurd rfl hi
    · cases f₁ <;> cases f₂ <;> simp_all [VlrField.subOffset, VlrField.width]
  · right
    have hgap := vlrStart_gap hs lens hgt h₂
    have hin := vlrField_inside f₂
    omega

/-- All header repair corrections of one pass are pairwise disjoint. -/
theorem repairCorrections_pairwise (h : Header) (s : Summary) (g : List Nat) (rb rc : Bool) :
    (repairCorrections h s g rb rc).Pairwise Correction.rangesDisjoint := by
  unfold repairCorrections
  refine List.pairwise_append.2 ⟨?_, ?_, ?_⟩
  · split_ifs with hrc
    · refine List.pairwise_append.2 ⟨List.pairwise_append.2 ⟨List.pairwise_append.2
          ⟨pairwise_of_length_le_one legacyCountRepair_len,
           pairwise_of_length_le_one extendedCountRepair_len, ?_⟩,
          pairwise_of_length_le_one legacyByReturnRepair_len, ?_⟩,
        pairwise_of_length_le_one extendedByReturnRepair_len, ?_⟩
      · intro a ha b hb
        obtain ⟨h1, h2⟩ := legacyCountRepair_mem ha
        obtain ⟨h3, h4, -⟩ := extendedCountRepair_mem hb
        simp only [Correction.rangesDisjoint]
        omega
      · intro a ha b hb
        obtain ⟨h3, h4⟩ := legacyByReturnRepair_mem hb
        rcases List.mem_append.1 ha with ha | ha
        · obtain ⟨h1, h2⟩ := legacyCountRepair_mem ha
          simp only [Correction.rangesDisjoint]
          omega
        · obtain ⟨h1, h2, -⟩ := extendedCountRepair_mem ha
          simp only [Correction.rangesDisjoint]
          omega
      · intro a ha b hb
        obtain ⟨h5, h6, -⟩ := extendedByReturnRepair_mem hb
        rcases List.mem_append.1 ha with ha | ha
        · rcases List.mem_append.1 ha with ha | ha
          · obtain ⟨h1, h2⟩ := legacyCountRepair_mem ha
            simp only [Correction.rangesDisjoint]
            omega
          · obtain ⟨h1, h2, -⟩ := extendedCountRepair_mem ha
            simp only [Correction.rangesDisjoint]
            omega
        · obtain ⟨h1, h2⟩ := legacyByReturnRepair_mem ha
          simp only [Correction.rangesDisjoint]
          omega
    · exact List.Pairwise.nil
  · split_ifs with hrb
    · exact pairwise_of_length_le_one bboxRepair_len
    · exact List.Pairwise.nil
  · intro a ha b hb
    split_ifs at ha with hrc
    · split_ifs at hb with hrb
      · obtain ⟨h5, h6⟩ := bboxRepair_mem hb
        rcases List.mem_append.1 ha with ha | ha
        · rcases List.mem_append.1 ha with ha | ha
          · rcases List.mem_append.1 ha with ha | ha
            · obtain ⟨h1, h2⟩ := legacyCountRepair_mem ha
              simp only [Correction.rangesDisjoint]
              omega
            · obtain ⟨h1, h2, -⟩ := extendedCountRepair_mem ha
              simp only [Correction.rangesDisjoint]
              omega
          · obtain ⟨h1, h2⟩ := legacyByReturnRepair_mem ha
            simp only [Correction.rangesDisjoint]
            omega
        · obtain ⟨h1, h2, -⟩ := extendedByReturnRepair_mem ha
          simp only [Correction.rangesDisjoint]
          omega
      · simp at hb
    · simp at ha

/-- Every header repair correction is disjoint from every record edit
correction: header repairs end inside the header (before byte 227, or
before byte 375 when the extended fields exist), and the record table
starts at header_size. -/
theorem repairCorrections_vlr_disjoint (h : Header) (s : Summary) (g : List Nat)
    (rb rc : Bool) (e : Option Nat) (f : VlrField)
    (hsz1 : 227 ≤ h.header_size) (hsz2 : 3 < h.version_minor → 375 ≤ h.header_size) :
    ∀ a ∈ repairCorrections h s g rb rc, ∀ b ∈ vlrEditCorrection h e f,
      Correction.rangesDisjoint a b := by
  intro a ha b hb
  obtain ⟨i, -, hi, hbpos, hbw⟩ := vlrEditCorrection_mem hb
  have hge := vlrStart_ge h.header_size h.vlr_record_lengths i
  unfold repairCorrections at ha
  rcases List.mem_append.1 ha with ha | ha
  · split_ifs at ha with hrc
    · rcases List.mem_append.1 ha with ha | ha
      · rcases List.mem_append.1 ha with ha | ha
        · rcases List.mem_append.1 ha with ha | ha
          · obtain ⟨h1, h2⟩ := legacyCountRepair_mem ha
            simp only [Correction.rangesDisjoint]
            omega
          · obtain ⟨h1, h2, hm⟩ := extendedCountRepair_mem ha
            have h375 := hsz2 hm
            simp only [Correction.rangesDisjoint]
            omega
        · obtain ⟨h1, h2⟩ := legacyByReturnRepair_mem ha
          simp only [Correction.rangesDisjoint]
          omega
      · obtain ⟨h1, h2, hm⟩ := extendedByReturnRepair_mem ha
        have h375 := hsz2 hm
        simp only [Correction.rangesDisjoint]
        omega
    · simp at ha
  · split_ifs at ha with hrb
    · obtain ⟨h1, h2⟩ := bboxRepair_mem ha
      simp only [Correction.rangesDisjoint]
      omega
    · simp at ha

/-- Record edit corrections for different fields never overlap, whatever
record indices were requested. -/
theorem vlrEdit_cross_disjoint (h : Header) (e₁ e₂ : Option Nat) (f₁ f₂ : VlrField)
    (hlen : h.vlr_record_lengths.length = h.number_of_variable_length_records)
    (hf : f₁ ≠ f₂) :
    ∀ a ∈ vlrEditCorrection h e₁ f₁, ∀ b ∈ vlrEditCorrection h e₂ f₂,
      Correction.rangesDisjoint a b := by
  intro a ha b hb
  obtain ⟨i, -, hi, hapos, haw⟩ := vlrEditCorrection_mem ha
  obtain ⟨j, -, hj, hbpos, hbw⟩ := vlrEditCorrection_mem hb
  have hd := vlr_positions_disjoint h.header_size h.vlr_record_lengths f₁ f₂
    (show i < h.vlr_record_lengths.length by omega)
    (show j < h.vlr_record_lengths.length by omega) (Or.inr hf)
  simp only [Correction.rangesDisjoint]
  rcases hd with hd | hd
  · left
    omega
  · right
    omega

/-- C9: no two corrections scheduled within a single verification pass have
overlapping byte ranges, given the format invariants that the header is at
least 227 bytes and at least 375 bytes when the extended fields exist, and
that the parsed record table has one length entry per declared record. -/
theorem C9_corrections_disjoint (h : Header) (s : Summary) (g : List Nat)
    (rb rc : Bool) (editU editR editD : Option Nat)
    (hsz1 : 227 ≤ h.header_size)
    (hsz2 : 3 < h.version_minor → 375 ≤ h.header_size)
    (hlen : h.vlr_record_lengths.length = h.number_of_variable_length_records) :
    (allCorrections h s g rb rc editU editR editD).Pairwise Correction.rangesDisjoint := by
  unfold allCorrections
  refine List.pairwise_append.2 ⟨List.pairwise_append.2 ⟨List.pairwise_append.2
      ⟨repairCorrections_pairwise h s g rb rc,
       pairwise_of_length_le_one vlrEditCorrection_len, ?_⟩,
      pairwise_of_length_le_one vlrEditCorrection_len, ?_⟩,
    pairwise_of_length_le_one vlrEditCorrection_len, ?_⟩
  · exact repairCorrections_vlr_disjoint h s g rb rc editU VlrField.user_id hsz1 hsz2
  · intro a ha b hb
    rcases List.mem_append.1 ha with ha | ha
    · exact repairCorrections_vlr_disjoint h s g rb rc editR VlrField.record_id hsz1 hsz2
        a ha b hb
    · exact vlrEdit_cross_disjoint h editU editR VlrField.user_id VlrField.record_id hlen
        (by decide) a ha b hb
  · intro a ha b hb
    rcases List.mem_append.1 ha with ha | ha
    · rcases List.mem_append.1 ha with ha | ha
      · exact repairCorrections_vlr_disjoint h s g rb rc editD VlrField.description hsz1 hsz2
          a ha b hb
      · exact vlrEdit_cross_disjoint h editU editD VlrField.user_id VlrField.description hlen
          (by decide) a ha b hb
    · exact vlrEdit_cross_disjoint h editR editD VlrField.record_id VlrField.description hlen
        (by decide) a ha b hb

/-- Concrete file for the C9 witness: wrong legacy count, two metadata
records, edits requested on the identifier of record 0, the type of record
1 and the description of record 0. -/
def hC9 : Header :=
  { point_data_format := 1, version_minor := 2, number_of_point_records := 3,
    number_of_points_by_return := [5, 0, 0, 0, 0],
    extended_number_of_point_records := 0,
    extended_number_of_points_by_return := [],
    x_scale_factor := 1, y_scale_factor := 1, z_scale_factor := 1,
    x_offset := 0, y_offset := 0, z_offset := 0,
    min_x := 0, max_x := 0, min_y := 0, max_y := 0, min_z := 0, max_z := 0,
    header_size := 227, number_of_variable_length_records := 2,
    vlr_record_lengths := [10, 20] }

/-- Summary for the C9 witness. -/
def sC9 : Summary :=
  { number_of_point_records := 5,
    number_of_points_by_return := [0, 5, 0, 0, 0, 0, 0, 0, 0, 0, 0, 0, 0, 0, 0, 0],
    min_X := 0, max_X := 0, min_Y := 0, max_Y := 0, min_Z := 0, max_Z := 0 }

/-- Witness for C9 on a concrete pass scheduling both repairs and three
record edits. -/
theorem C9_witness :
    (allCorrections hC9 sC9 [0, 0, 0, 0, 0] true true
        (some 0) (some 1) (some 0)).Pairwise Correction.rangesDisjoint :=
  C9_corrections_disjoint hC9 sC9 [0, 0, 0, 0, 0] true true (some 0) (some 1) (some 0)
    (by decide) (by decide) (by decide)

end LasInfo
